import Mathlib

/-!
Verification of the GoalieScout movement-analytics and ranking pipeline.

The definitions below are a shallow embedding of the Python source:
* `src/reports/generator.py` — tier classification, ranking, summary;
* `src/ai_providers/*.py` — numeric-score extraction from provider text;
* `src/metrics/movement.py` — kinematic metrics over tracking frames.

Python integers are modelled as `Int` (arbitrary precision), tabular cell
values and coordinates as `Rat`, and floating-point kinematic results as
real numbers.
-/

namespace GoalieScout

/-! ### Tier classification (`ReportGenerator._score_to_tier`) -/

/-- `_score_to_tier` from `src/reports/generator.py`: cascading
`if score >= 90 … elif … else` returning one of six tier letters. -/
def score_to_tier (score : Int) : String :=
  if score ≥ 90 then "S"
  else if score ≥ 80 then "A"
  else if score ≥ 70 then "B"
  else if score ≥ 60 then "C"
  else if score ≥ 50 then "D"
  else "F"

/-! ### Score extraction (`generate_score` in the AI providers)

All three providers (`anthropic_provider.py`, `openai_provider.py`,
`ollama_provider.py`) parse the model's reply identically:
`re.search(r'\d+', text)` takes the first maximal digit run, `int(...)`
reads it in decimal, the result is clamped with `max(0, min(100, score))`,
and `50` is returned when no digit occurs. -/

/-- Decimal value of a digit run, as `int()` reads a matched `\d+` group. -/
def digitsVal (ds : List Char) : Nat :=
  ds.foldl (fun acc c => 10 * acc + (c.toNat - 48)) 0

/-- `re.search(r'\d+', s)`: the first maximal run of decimal digits in `s`,
as a number, or `none` when `s` has no digit. -/
def firstNumber : List Char → Option Nat
  | [] => none
  | c :: cs =>
    if c.isDigit then some (digitsVal ((c :: cs).takeWhile Char.isDigit))
    else firstNumber cs

/-- `generate_score` text handling shared by every provider: extract the
first integer-looking substring, clamp into `[0, 100]`, default `50`. -/
def generate_score (response : String) : Int :=
  match firstNumber response.data with
  | some n => max 0 (min 100 (n : Int))
  | none => 50

/-! ### Score reports (`ReportGenerator`) -/

/-- One player report dictionary as built by
`ReportGenerator.generate_player_report` (its `metrics` entry is opaque to
every claim and is omitted); `rank` is absent (`none`) until
`rank_players` writes it. -/
structure Report where
  player_name : String
  position : String
  scouting_notes : String
  score : Int
  tier : String
  rank : Option Nat
deriving DecidableEq

/-- Default report used to total the partial list lookups. -/
def dfltReport : Report :=
  { player_name := "", position := "", scouting_notes := "", score := 0,
    tier := "", rank := none }

/-- `ReportGenerator.generate_player_report`: the injected capability's
two replies arrive as text; the score reply is parsed by `generate_score`
and the tier is classified from that already-clamped score. -/
def generate_player_report (player_name position notes_response score_response : String) :
    Report :=
  { player_name := player_name, position := position,
    scouting_notes := notes_response,
    score := generate_score score_response,
    tier := score_to_tier (generate_score score_response),
    rank := none }

/-! ### Ranking (`ReportGenerator.rank_players`)

`sorted(reports, key=lambda x: x['score'], reverse=True)` is Python's
stable sort, descending by score: its output order is exactly the order of
the pairs (score descending, original position ascending).  We model the
batch as a heap of report cells addressed by original position, sort the
positions, and write each cell's rank back in place, which captures the
in-place `report['rank'] = rank` mutation and the aliasing of the returned
list with the input dictionaries. -/

/-- Scores of a batch, addressed by original position. -/
def scoresOf (reports : List Report) : List Int :=
  reports.map Report.score

/-- Order on original positions realised by Python's stable descending
sort: higher score first, ties by original position. -/
def rankRel (s : List Int) (i j : Nat) : Prop :=
  s.getD j 0 < s.getD i 0 ∨ (s.getD i 0 = s.getD j 0 ∧ i ≤ j)

instance (s : List Int) : DecidableRel (rankRel s) := fun i j => by
  unfold rankRel; infer_instance

instance (s : List Int) : IsTotal Nat (rankRel s) := by
  constructor; intro i j; unfold rankRel; omega

instance (s : List Int) : IsTrans Nat (rankRel s) := by
  constructor; intro a b c; unfold rankRel; omega

/-- The order in which `sorted(..., reverse=True)` emits the original
positions of the batch. -/
def sortIdx (reports : List Report) : List Nat :=
  List.insertionSort (rankRel (scoresOf reports)) (List.range reports.length)

/-- The batch after `rank_players` ran: every input report cell, in its
original position, with `rank` overwritten by `1 + sorted position`
(`enumerate(sorted_reports, 1)`). -/
def rank_players_heap (reports : List Report) : List Report :=
  (List.range reports.length).map fun i =>
    { reports.getD i dfltReport with rank := some ((sortIdx reports).indexOf i + 1) }

/-- `ReportGenerator.rank_players`: the returned list is the mutated heap
cells read out in sorted order (aliases of the input dictionaries). -/
def rank_players (reports : List Report) : List Report :=
  (sortIdx reports).map fun i => (rank_players_heap reports).getD i dfltReport

/-! ### Summary (`ReportGenerator.generate_summary`) -/

/-- One `top_3_players` entry: the projected sub-dictionary that
`generate_summary` builds per leading report. -/
structure TopEntry where
  rank : Option Nat
  name : String
  position : String
  score : Int
  tier : String
deriving DecidableEq

/-- Projection of a report onto a `top_3_players` entry. -/
def toTopEntry (r : Report) : TopEntry :=
  { rank := r.rank, name := r.player_name, position := r.position,
    score := r.score, tier := r.tier }

/-- The summary dictionary.  `average_score` is `none` when the key is
absent, which is exactly the empty-batch return value of the source. -/
structure Summary where
  total_players : Nat
  tier_distribution : List (String × Nat)
  top_3_players : List TopEntry
  average_score : Option Rat
deriving DecidableEq

/-- `tier_counts[tier] = tier_counts.get(tier, 0) + 1` on an
insertion-ordered dictionary modelled as an association list. -/
def bumpTier (counts : List (String × Nat)) (t : String) : List (String × Nat) :=
  match counts with
  | [] => [(t, 1)]
  | (k, v) :: rest => if k = t then (k, v + 1) :: rest else (k, v) :: bumpTier rest t

/-- The `tier_distribution` loop of `generate_summary`. -/
def tierCounts (reports : List Report) : List (String × Nat) :=
  reports.foldl (fun acc r => bumpTier acc r.tier) []

/-- `ReportGenerator.generate_summary`. -/
def generate_summary (ranked : List Report) : Summary :=
  match ranked with
  | [] =>
    { total_players := 0, tier_distribution := [], top_3_players := [],
      average_score := none }
  | _ =>
    { total_players := ranked.length,
      tier_distribution := tierCounts ranked,
      top_3_players := (ranked.take 3).map toTopEntry,
      average_score :=
        some (((ranked.map Report.score).sum : Rat) / (ranked.length : Rat)) }

/-! ### Concrete batch used by the stability example of the spec -/

/-- A batch with scores `[50, 90, 90, 70]` in that order, names chosen to
make the two score-90 entries distinguishable. -/
def exampleBatch : List Report :=
  [{ player_name := "p1", position := "G", scouting_notes := "", score := 50,
     tier := "D", rank := none },
   { player_name := "p2", position := "G", scouting_notes := "", score := 90,
     tier := "S", rank := none },
   { player_name := "p3", position := "G", scouting_notes := "", score := 90,
     tier := "S", rank := none },
   { player_name := "p4", position := "G", scouting_notes := "", score := 70,
     tier := "B", rank := none }]

/-! ### Tracking frames (`pandas.DataFrame` as consumed by
`MovementMetrics` in `src/metrics/movement.py`)

A frame is a named-column table; cells, coordinates and timestamps are
modelled as rationals, and the floating-point results of the kinematic
formulas as real numbers. -/

/-- A tabular input: column names plus rows of cells aligned with them. -/
structure Frame where
  columns : List String
  rows : List (List Rat)
deriving DecidableEq

/-- `MovementMetrics._find_column`: the first alias that exists among the
frame's columns.  The source returns the empty string when none does and
callers test that result for falsiness; modelled as `Option`. -/
def find_column (f : Frame) (names : List String) : Option String :=
  names.find? fun n => f.columns.contains n

/-- Alias list for the x coordinate, in source priority order. -/
def xAliases : List String := ["x", "x_coord", "x_position"]

/-- Alias list for the y coordinate, in source priority order. -/
def yAliases : List String := ["y", "y_coord", "y_position"]

/-- Alias list for the timestamp, in source priority order. -/
def timeAliases : List String := ["time", "timestamp", "frame", "game_time"]

/-- A row's cell under a column name. -/
def cellVal (f : Frame) (row : List Rat) (c : String) : Rat :=
  row.getD (List.indexOf c f.columns) 0

/-- `df.sort_values(c)`: the rows reordered ascending by the cell under
`c` (a stable realisation of the sort). -/
def sort_values (f : Frame) (c : String) : Frame :=
  { f with
    rows := List.insertionSort (fun r1 r2 => cellVal f r1 c ≤ cellVal f r2 c) f.rows }

/-- `df[c].values` as a list. -/
def getCol (f : Frame) (c : String) : List Rat :=
  f.rows.map fun row => cellVal f row c

/-- `MovementMetrics.calculate_distance`: Euclidean distance between two
points. -/
noncomputable def calculate_distance (x1 y1 x2 y2 : Rat) : Real :=
  Real.sqrt (((x2 : Real) - (x1 : Real)) ^ 2 + ((y2 : Real) - (y1 : Real)) ^ 2)

/-- The consecutive-pair accumulation loop of `calculate_total_distance`,
over the x and y columns. -/
noncomputable def pairDistSum : List Rat → List Rat → Real
  | x1 :: x2 :: xs, y1 :: y2 :: ys =>
    calculate_distance x1 y1 x2 y2 + pairDistSum (x2 :: xs) (y2 :: ys)
  | _, _ => 0

/-- `MovementMetrics.calculate_total_distance`: 0 for fewer than two rows
or unresolved coordinate columns; otherwise the consecutive Euclidean
distances of the series, time-sorted when a time column resolves. -/
noncomputable def calculate_total_distance (f : Frame) : Real :=
  if f.rows.length < 2 then 0
  else
    match find_column f xAliases, find_column f yAliases with
    | some xc, some yc =>
      let f2 :=
        match find_column f timeAliases with
        | some tc => sort_values f tc
        | none => f
      pairDistSum (getCol f2 xc) (getCol f2 yc)
    | _, _ => 0

/-- Norm of a segment vector, `np.linalg.norm`. -/
noncomputable def segNorm (vx vy : Real) : Real :=
  Real.sqrt (vx ^ 2 + vy ^ 2)

/-- The per-triplet test of `calculate_direction_changes`: both segments
have positive norm, and the angle — the arccosine (converted to degrees)
of the normalized dot product with the cosine clipped to `[-1, 1]` —
meets the threshold. -/
def changePred (θ : Real) (x1 y1 x2 y2 x3 y3 : Rat) : Prop :=
  segNorm ((x2 : Real) - (x1 : Real)) ((y2 : Real) - (y1 : Real)) > 0 ∧
  segNorm ((x3 : Real) - (x2 : Real)) ((y3 : Real) - (y2 : Real)) > 0 ∧
  (180 / Real.pi) *
      Real.arccos (min 1 (max (-1)
        ((((x2 : Real) - x1) * ((x3 : Real) - x2) +
            ((y2 : Real) - y1) * ((y3 : Real) - y2)) /
          (segNorm ((x2 : Real) - x1) ((y2 : Real) - y1) *
            segNorm ((x3 : Real) - x2) ((y3 : Real) - y2))))) ≥ θ

open Classical in
/-- The triplet counting loop of `calculate_direction_changes`. -/
noncomputable def countChanges (θ : Real) : List Rat → List Rat → Nat
  | x1 :: x2 :: x3 :: xs, y1 :: y2 :: y3 :: ys =>
    (if changePred θ x1 y1 x2 y2 x3 y3 then 1 else 0) +
      countChanges θ (x2 :: x3 :: xs) (y2 :: y3 :: ys)
  | _, _ => 0

/-- `MovementMetrics.calculate_direction_changes`: 0 for fewer than three
rows or unresolved coordinate columns; otherwise the number of qualifying
triplets of the time-sorted series. -/
noncomputable def calculate_direction_changes (f : Frame) (θ : Real) : Nat :=
  if f.rows.length < 3 then 0
  else
    match find_column f xAliases, find_column f yAliases with
    | some xc, some yc =>
      let f2 :=
        match find_column f timeAliases with
        | some tc => sort_values f tc
        | none => f
      countChanges θ (getCol f2 xc) (getCol f2 yc)
    | _, _ => 0

/-- The `abs(x[i] - x[i-1])` accumulation of
`MovementMetrics._calculate_lateral_movement`. -/
def absDeltaSum : List Rat → Rat
  | x1 :: x2 :: xs => |x2 - x1| + absDeltaSum (x2 :: xs)
  | _ => 0

/-- `MovementMetrics._calculate_lateral_movement`: 0 for fewer than two
rows or an unresolved x column; otherwise the sum of absolute consecutive
x-deltas over the rows as given (the source performs no time sort here). -/
def calculate_lateral_movement (f : Frame) : Rat :=
  if f.rows.length < 2 then 0
  else
    match find_column f xAliases with
    | some xc => absDeltaSum (getCol f xc)
    | none => 0

/-- Canonical tracking frame built from `(time, x, y)` samples. -/
def mkFrame (samples : List (Rat × Rat × Rat)) : Frame :=
  { columns := ["time", "x", "y"],
    rows := samples.map fun s => [s.1, s.2.1, s.2.2] }

/-- Samples sorted ascending by time; the spec's "time-sorted" order. -/
def sortByTime (samples : List (Rat × Rat × Rat)) : List (Rat × Rat × Rat) :=
  List.insertionSort (fun a b => a.1 ≤ b.1) samples

/-- Position of a `(time, x, y)` sample. -/
def posOf (s : Rat × Rat × Rat) : Rat × Rat := (s.2.1, s.2.2)

/-- Formulation following the spec's words: the sum of Euclidean distances
between each consecutive pair of points. -/
noncomputable def specEuclidSum : List (Rat × Rat) → Real
  | p :: q :: rest =>
    Real.sqrt (((q.1 : Real) - (p.1 : Real)) ^ 2 +
        ((q.2 : Real) - (p.2 : Real)) ^ 2) +
      specEuclidSum (q :: rest)
  | _ => 0

/-- Expected ranked output for `exampleBatch`. -/
def exampleRanked : List Report :=
  [{ player_name := "p2", position := "G", scouting_notes := "", score := 90,
     tier := "S", rank := some 1 },
   { player_name := "p3", position := "G", scouting_notes := "", score := 90,
     tier := "S", rank := some 2 },
   { player_name := "p4", position := "G", scouting_notes := "", score := 70,
     tier := "B", rank := some 3 },
   { player_name := "p1", position := "G", scouting_notes := "", score := 50,
     tier := "D", rank := some 4 }]

end GoalieScout

namespace GoalieScout

/-! ## Theorems -/

/-- C1: the tier classifier maps score ≥ 90 to S, 80–89 to A, 70–79 to B,
60–69 to C, 50–59 to D, and score < 50 to F; the ten boundary inputs
90, 89, 80, 79, 70, 69, 60, 59, 50, 49 map exactly to
S, A, A, B, B, C, C, D, D, F. -/
theorem C1_tier_boundaries :
    (∀ s : Int, 90 ≤ s → score_to_tier s = "S") ∧
    (∀ s : Int, 80 ≤ s → s < 90 → score_to_tier s = "A") ∧
    (∀ s : Int, 70 ≤ s → s < 80 → score_to_tier s = "B") ∧
    (∀ s : Int, 60 ≤ s → s < 70 → score_to_tier s = "C") ∧
    (∀ s : Int, 50 ≤ s → s < 60 → score_to_tier s = "D") ∧
    (∀ s : Int, s < 50 → score_to_tier s = "F") ∧
    [90, 89, 80, 79, 70, 69, 60, 59, 50, 49].map score_to_tier =
      ["S", "A", "A", "B", "B", "C", "C", "D", "D", "F"] := by
  refine ⟨?_, ?_, ?_, ?_, ?_, ?_, by decide⟩ <;>
    · intro s h1
      first
      | (intro h2; unfold score_to_tier; split_ifs <;> first | rfl | omega)
      | (unfold score_to_tier; split_ifs <;> first | rfl | omega)

/-- Witness for C1: each tier band is inhabited and classified as stated. -/
theorem C1_tier_boundaries_witness :
    score_to_tier 95 = "S" ∧ score_to_tier 85 = "A" ∧ score_to_tier 75 = "B" ∧
    score_to_tier 65 = "C" ∧ score_to_tier 55 = "D" ∧ score_to_tier 45 = "F" :=
  ⟨C1_tier_boundaries.1 95 (by decide),
   C1_tier_boundaries.2.1 85 (by decide) (by decide),
   C1_tier_boundaries.2.2.1 75 (by decide) (by decide),
   C1_tier_boundaries.2.2.2.1 65 (by decide) (by decide),
   C1_tier_boundaries.2.2.2.2.1 55 (by decide) (by decide),
   C1_tier_boundaries.2.2.2.2.2.1 45 (by decide)⟩

/-- C9: the tier classifier is total over all integers: every input,
including values outside `[0, 100]`, yields one of the six tiers; every
score ≥ 90 (for example 150) yields S, and every negative score yields F. -/
theorem C9_tier_total (s : Int) :
    (score_to_tier s = "S" ∨ score_to_tier s = "A" ∨ score_to_tier s = "B" ∨
      score_to_tier s = "C" ∨ score_to_tier s = "D" ∨ score_to_tier s = "F") ∧
    (90 ≤ s → score_to_tier s = "S") ∧
    (s < 0 → score_to_tier s = "F") ∧
    score_to_tier 150 = "S" ∧ score_to_tier (-5) = "F" := by
  refine ⟨?_, ?_, ?_, by decide, by decide⟩
  · unfold score_to_tier; split_ifs <;> simp
  · intro h; unfold score_to_tier; split_ifs <;> first | rfl | omega
  · intro h
    unfold score_to_tier
    split_ifs <;> first | rfl | omega

/-- Witness for C9 at the out-of-range inputs 150 and -5. -/
theorem C9_tier_total_witness :
    score_to_tier 150 = "S" ∧ score_to_tier (-5) = "F" :=
  ⟨(C9_tier_total 150).2.1 (by decide), (C9_tier_total (-5)).2.2.1 (by decide)⟩

/-! ### Ranking lemmas -/

theorem sortIdx_perm (reports : List Report) :
    (sortIdx reports).Perm (List.range reports.length) :=
  List.perm_insertionSort _ _

theorem sortIdx_sorted (reports : List Report) :
    (sortIdx reports).Pairwise (rankRel (scoresOf reports)) :=
  List.sorted_insertionSort _ _

theorem sortIdx_nodup (reports : List Report) : (sortIdx reports).Nodup :=
  ((sortIdx_perm reports).nodup_iff).mpr (List.nodup_range reports.length)

theorem sortIdx_length (reports : List Report) :
    (sortIdx reports).length = reports.length := by
  simpa using (sortIdx_perm reports).length_eq

theorem mem_sortIdx {reports : List Report} {i : Nat} (h : i ∈ sortIdx reports) :
    i < reports.length := by
  simpa using (sortIdx_perm reports).mem_iff.mp h

theorem map_indexOf_self : ∀ {l : List Nat}, l.Nodup →
    l.map (fun i => List.indexOf i l) = List.range l.length := by
  intro l
  induction l with
  | nil => intro _; simp
  | cons a t ih =>
    intro h
    obtain ⟨ha, ht⟩ := List.nodup_cons.mp h
    have h2 : ∀ i ∈ t, List.indexOf i (a :: t) = List.indexOf i t + 1 := by
      intro i hi
      have hne : a ≠ i := fun e => ha (e ▸ hi)
      simpa [Nat.succ_eq_add_one] using List.indexOf_cons_ne t hne
    calc (a :: t).map (fun i => List.indexOf i (a :: t))
        = List.indexOf a (a :: t) :: t.map (fun i => List.indexOf i (a :: t)) := by
          simp
      _ = 0 :: t.map (fun i => List.indexOf i t + 1) := by
          rw [List.indexOf_cons_self, List.map_congr_left h2]
      _ = 0 :: (t.map fun i => List.indexOf i t).map (· + 1) := by
          simp [List.map_map, Function.comp]
      _ = 0 :: (List.range t.length).map (· + 1) := by rw [ih ht]
      _ = List.range (t.length + 1) := by
          rw [List.range_succ_eq_map]
      _ = List.range (a :: t).length := by simp

theorem rank_players_heap_getD (reports : List Report) {i : Nat}
    (h : i < reports.length) :
    (rank_players_heap reports).getD i dfltReport =
      { reports.getD i dfltReport with
        rank := some ((sortIdx reports).indexOf i + 1) } := by
  unfold rank_players_heap
  rw [List.getD_eq_getElem]
  · simp
  · simpa using h

theorem rank_players_rank_map (reports : List Report) :
    (rank_players reports).map Report.rank =
      (List.range reports.length).map (fun k => some (k + 1)) := by
  unfold rank_players
  rw [List.map_map]
  have h1 : ∀ i ∈ sortIdx reports,
      (Report.rank ∘ fun i => (rank_players_heap reports).getD i dfltReport) i
        = (fun i => some ((sortIdx reports).indexOf i + 1)) i := by
    intro i hi
    simp only [Function.comp_apply]
    rw [rank_players_heap_getD reports (mem_sortIdx hi)]
  rw [List.map_congr_left h1]
  have h2 : (sortIdx reports).map (fun i => some ((sortIdx reports).indexOf i + 1))
      = ((sortIdx reports).map (fun i => List.indexOf i (sortIdx reports))).map
          (fun k => some (k + 1)) := by
    simp [List.map_map, Function.comp]
  rw [h2, map_indexOf_self (sortIdx_nodup reports), sortIdx_length]

theorem rank_players_score_map (reports : List Report) :
    (rank_players reports).map Report.score =
      (sortIdx reports).map (fun i => (scoresOf reports).getD i 0) := by
  unfold rank_players
  rw [List.map_map]
  apply List.map_congr_left
  intro i hi
  have hlt := mem_sortIdx hi
  have hlt2 : i < (reports.map Report.score).length := by simpa using hlt
  simp only [Function.comp, rank_players_heap_getD reports hlt, scoresOf]
  rw [List.getD_eq_getElem _ _ hlt, List.getD_eq_getElem _ _ hlt2,
    List.getElem_map]

theorem rank_players_score_bounds (rs : List Report)
    (h : ∀ r ∈ rs, 0 ≤ r.score ∧ r.score ≤ 100) :
    ∀ r ∈ rank_players rs, 0 ≤ r.score ∧ r.score ≤ 100 := by
  intro r hr
  unfold rank_players at hr
  obtain ⟨i, hi, rfl⟩ := List.mem_map.mp hr
  have hlt := mem_sortIdx hi
  rw [rank_players_heap_getD rs hlt]
  have hmem : rs.getD i dfltReport ∈ rs := by
    rw [List.getD_eq_getElem _ _ hlt]
    exact List.getElem_mem hlt
  simpa using h _ hmem

theorem sortIdx_pairwise_strict (reports : List Report) :
    (sortIdx reports).Pairwise (fun i j =>
      (scoresOf reports).getD j 0 < (scoresOf reports).getD i 0 ∨
      ((scoresOf reports).getD i 0 = (scoresOf reports).getD j 0 ∧ i < j)) := by
  have hs := sortIdx_sorted reports
  have hn : (sortIdx reports).Pairwise (fun i j => i ≠ j) := sortIdx_nodup reports
  refine (hs.and hn).imp ?_
  rintro a b ⟨hab | ⟨he, hle⟩, hne⟩
  · exact Or.inl hab
  · exact Or.inr ⟨he, lt_of_le_of_ne hle hne⟩

/-- C2: for every batch, `rank_players` emits the reports in descending
score order, ties kept in original relative batch order (stable sort, no
secondary key), with `rank = 1 + sorted index` so ranks are exactly
`1..n`; the batch with scores `[50, 90, 90, 70]` yields order
`[90, 90, 70, 50]` with ranks `[1, 2, 3, 4]` and the two score-90 entries
in original relative order. -/
theorem C2_rank_players_spec (reports : List Report) :
    (sortIdx reports).Perm (List.range reports.length) ∧
    (sortIdx reports).Pairwise (fun i j =>
      (scoresOf reports).getD j 0 < (scoresOf reports).getD i 0 ∨
      ((scoresOf reports).getD i 0 = (scoresOf reports).getD j 0 ∧ i < j)) ∧
    (rank_players reports).map Report.rank =
      (List.range reports.length).map (fun k => some (k + 1)) ∧
    (rank_players reports).map Report.score =
      (sortIdx reports).map (fun i => (scoresOf reports).getD i 0) ∧
    rank_players exampleBatch = exampleRanked :=
  ⟨sortIdx_perm reports, sortIdx_pairwise_strict reports,
   rank_players_rank_map reports, rank_players_score_map reports, by decide⟩

/-- C8: the empty batch never raises: ranking the empty list returns the
empty list, and the summary has zero players, an empty tier distribution,
an empty top list, and no average score. -/
theorem C8_empty_batch :
    rank_players ([] : List Report) = [] ∧
    generate_summary [] =
      { total_players := 0, tier_distribution := [], top_3_players := [],
        average_score := none } :=
  ⟨rfl, rfl⟩

/-! ### Score extraction lemmas -/

theorem firstNumber_none {cs : List Char} (h : ∀ c ∈ cs, ¬ c.isDigit) :
    firstNumber cs = none := by
  induction cs with
  | nil => rfl
  | cons c cs ih =>
    unfold firstNumber
    rw [if_neg (h c (List.mem_cons_self c cs))]
    exact ih fun x hx => h x (List.mem_cons_of_mem c hx)

/-- C3: every score accepted from the external scoring capability is the
first integer-looking substring of the capability's text clamped into
`[0, 100]`, with the fixed neutral default 50 when no integer is present;
the report's tier is classified from that already-clamped score, and the
rank aggregator therefore never observes an out-of-range score. -/
theorem C3_score_boundary (resp : String) :
    (0 ≤ generate_score resp ∧ generate_score resp ≤ 100) ∧
    ((∀ c ∈ resp.data, ¬ c.isDigit) → generate_score resp = 50) ∧
    (∀ n : Nat, firstNumber resp.data = some n →
      generate_score resp = max 0 (min 100 (n : Int))) ∧
    (∀ name pos notes : String,
      (generate_player_report name pos notes resp).score = generate_score resp ∧
      (generate_player_report name pos notes resp).tier =
        score_to_tier (generate_score resp)) ∧
    (∀ rs : List Report, (∀ r ∈ rs, 0 ≤ r.score ∧ r.score ≤ 100) →
      ∀ r ∈ rank_players rs, 0 ≤ r.score ∧ r.score ≤ 100) := by
  refine ⟨?_, ?_, ?_, fun name pos notes => ⟨rfl, rfl⟩, rank_players_score_bounds⟩
  · unfold generate_score
    cases hfn : firstNumber resp.data with
    | none => exact ⟨by norm_num, by norm_num⟩
    | some n =>
      exact ⟨le_max_left 0 _, max_le (by norm_num) (min_le_left _ _)⟩
  · intro h; unfold generate_score; rw [firstNumber_none h]
  · intro n hn; unfold generate_score; rw [hn]

/-- Witness for C3: a digit-free reply defaults to 50, an oversized first
integer is clamped, and a plain integer reply stays in range. -/
theorem C3_score_boundary_witness :
    generate_score "no digits at all" = 50 ∧
    generate_score "Score: 850!" = max 0 (min 100 (850 : Int)) ∧
    (0 ≤ generate_score "92" ∧ generate_score "92" ≤ 100) :=
  ⟨(C3_score_boundary "no digits at all").2.1 (by decide),
   (C3_score_boundary "Score: 850!").2.2.1 850 (by decide),
   (C3_score_boundary "92").1⟩

/-! ### Summary lemmas -/

theorem sum_snd_bumpTier (counts : List (String × Nat)) (t : String) :
    ((bumpTier counts t).map Prod.snd).sum = (counts.map Prod.snd).sum + 1 := by
  induction counts with
  | nil => rfl
  | cons p rest ih =>
    obtain ⟨k, v⟩ := p
    unfold bumpTier
    by_cases hk : k = t
    · rw [if_pos hk]; simp; omega
    · rw [if_neg hk]; simp [ih]; omega

theorem sum_snd_tierCounts_aux : ∀ (l : List Report) (acc : List (String × Nat)),
    ((l.foldl (fun a r => bumpTier a r.tier) acc).map Prod.snd).sum
      = (acc.map Prod.snd).sum + l.length := by
  intro l
  induction l with
  | nil => intro acc; simp
  | cons r rest ih =>
    intro acc
    simp only [List.foldl_cons]
    rw [ih (bumpTier acc r.tier), sum_snd_bumpTier]
    simp [List.length_cons]
    omega

/-- C7: for every non-empty ranked batch, the tier-distribution counts sum
exactly to `total_players`, and `average_score` is exactly the arithmetic
mean of the batch's scores (exact rational equality, hence within any
floating-point tolerance such as 1e-9). -/
theorem C7_summary_invariants (ranked : List Report) (h : ranked ≠ []) :
    ((generate_summary ranked).tier_distribution.map Prod.snd).sum =
      (generate_summary ranked).total_players ∧
    (generate_summary ranked).average_score =
      some (((ranked.map Report.score).sum : Rat) / (ranked.length : Rat)) := by
  match ranked, h with
  | r :: rest, _ =>
    constructor
    · show ((tierCounts (r :: rest)).map Prod.snd).sum = (r :: rest).length
      unfold tierCounts
      rw [sum_snd_tierCounts_aux]
      simp
    · rfl

/-- Witness for C7 on the four-player example batch. -/
theorem C7_summary_invariants_witness :
    ((generate_summary exampleBatch).tier_distribution.map Prod.snd).sum =
      (generate_summary exampleBatch).total_players ∧
    (generate_summary exampleBatch).average_score =
      some (((exampleBatch.map Report.score).sum : Rat) /
        (exampleBatch.length : Rat)) :=
  C7_summary_invariants exampleBatch (by decide)

/-- C10: `rank_players` mutates its argument: each input report cell gets
its `rank` overwritten with `1 + sorted position` while every other field
is unchanged, and the returned list is exactly those same cells read out
at a permutation of the original positions (aliases, not copies). -/
theorem C10_rank_mutation (reports : List Report) :
    (rank_players_heap reports).length = reports.length ∧
    (∀ i, i < reports.length →
      ((rank_players_heap reports).getD i dfltReport).player_name =
        (reports.getD i dfltReport).player_name ∧
      ((rank_players_heap reports).getD i dfltReport).position =
        (reports.getD i dfltReport).position ∧
      ((rank_players_heap reports).getD i dfltReport).scouting_notes =
        (reports.getD i dfltReport).scouting_notes ∧
      ((rank_players_heap reports).getD i dfltReport).score =
        (reports.getD i dfltReport).score ∧
      ((rank_players_heap reports).getD i dfltReport).tier =
        (reports.getD i dfltReport).tier ∧
      ((rank_players_heap reports).getD i dfltReport).rank =
        some ((sortIdx reports).indexOf i + 1)) ∧
    rank_players reports =
      (sortIdx reports).map (fun i => (rank_players_heap reports).getD i dfltReport) ∧
    (sortIdx reports).Perm (List.range reports.length) := by
  refine ⟨?_, ?_, rfl, sortIdx_perm reports⟩
  · unfold rank_players_heap; simp
  · intro i h
    rw [rank_players_heap_getD reports h]
    exact ⟨rfl, rfl, rfl, rfl, rfl, rfl⟩

/-! ### Frame bridge lemmas -/

theorem cellVal_time (ss : List (Rat × Rat × Rat)) (row : List Rat) :
    cellVal (mkFrame ss) row "time" = row.getD 0 0 := rfl

theorem find_column_mkFrame_x (ss : List (Rat × Rat × Rat)) :
    find_column (mkFrame ss) xAliases = some "x" := rfl

theorem find_column_mkFrame_y (ss : List (Rat × Rat × Rat)) :
    find_column (mkFrame ss) yAliases = some "y" := rfl

theorem find_column_mkFrame_time (ss : List (Rat × Rat × Rat)) :
    find_column (mkFrame ss) timeAliases = some "time" := rfl

theorem sort_values_mkFrame (ss : List (Rat × Rat × Rat)) :
    sort_values (mkFrame ss) "time" = mkFrame (sortByTime ss) := by
  have hl : ∀ a ∈ ss, ∀ b ∈ ss, a.1 ≤ b.1 ↔
      cellVal (mkFrame ss) [a.1, a.2.1, a.2.2] "time" ≤
        cellVal (mkFrame ss) [b.1, b.2.1, b.2.2] "time" := by
    intro a _ b _
    rw [cellVal_time, cellVal_time]
    exact Iff.rfl
  have h := List.map_insertionSort (fun a b : Rat × Rat × Rat => a.1 ≤ b.1)
      (fun r1 r2 : List Rat =>
        cellVal (mkFrame ss) r1 "time" ≤ cellVal (mkFrame ss) r2 "time")
      (fun s => [s.1, s.2.1, s.2.2]) ss hl
  unfold sort_values sortByTime mkFrame
  congr 1
  exact h.symm

theorem getCol_mkFrame_x (ss : List (Rat × Rat × Rat)) :
    getCol (mkFrame ss) "x" = ss.map fun s => s.2.1 := by
  unfold getCol mkFrame
  rw [List.map_map]
  rfl

theorem getCol_mkFrame_y (ss : List (Rat × Rat × Rat)) :
    getCol (mkFrame ss) "y" = ss.map fun s => s.2.2 := by
  unfold getCol mkFrame
  rw [List.map_map]
  rfl

theorem pairDistSum_eq_spec (ps : List (Rat × Rat)) :
    pairDistSum (ps.map Prod.fst) (ps.map Prod.snd) = specEuclidSum ps := by
  induction ps with
  | nil => rfl
  | cons p rest ih =>
    cases rest with
    | nil => rfl
    | cons q rest2 =>
      simp only [List.map_cons] at ih ⊢
      rw [pairDistSum, specEuclidSum, ← ih]
      rfl

/-- `calculate_total_distance` on a canonical tracking frame is the
spec-side sum of consecutive Euclidean distances of the time-sorted
samples. -/
theorem total_distance_mkFrame (ss : List (Rat × Rat × Rat))
    (h2 : 2 ≤ ss.length) :
    calculate_total_distance (mkFrame ss) =
      specEuclidSum ((sortByTime ss).map posOf) := by
  unfold calculate_total_distance
  rw [if_neg (by simp [mkFrame]; omega)]
  rw [find_column_mkFrame_x, find_column_mkFrame_y, find_column_mkFrame_time]
  show pairDistSum (getCol (sort_values (mkFrame ss) "time") "x")
      (getCol (sort_values (mkFrame ss) "time") "y") = _
  rw [sort_values_mkFrame, getCol_mkFrame_x, getCol_mkFrame_y]
  have hx : (sortByTime ss).map (fun s => s.2.1) =
      ((sortByTime ss).map posOf).map Prod.fst := by
    rw [List.map_map]; rfl
  have hy : (sortByTime ss).map (fun s => s.2.2) =
      ((sortByTime ss).map posOf).map Prod.snd := by
    rw [List.map_map]; rfl
  rw [hx, hy, pairDistSum_eq_spec]

/-- C4: `calculate_total_distance` is the sum of Euclidean distances
between consecutive time-sorted samples, yields exactly 0 for fewer than
two samples or when the x or y column fails to resolve from its alias
list, and yields exactly 5 for two samples at (0,0) and (3,4) under
either input ordering. -/
theorem C4_total_distance :
    (∀ f : Frame, f.rows.length < 2 → calculate_total_distance f = 0) ∧
    (∀ f : Frame, find_column f xAliases = none →
      calculate_total_distance f = 0) ∧
    (∀ f : Frame, find_column f yAliases = none →
      calculate_total_distance f = 0) ∧
    (∀ ss : List (Rat × Rat × Rat), 2 ≤ ss.length →
      calculate_total_distance (mkFrame ss) =
        specEuclidSum ((sortByTime ss).map posOf)) ∧
    calculate_total_distance (mkFrame [(0, 0, 0), (1, 3, 4)]) = 5 ∧
    calculate_total_distance (mkFrame [(1, 3, 4), (0, 0, 0)]) = 5 := by
  have hconc : ∀ ss : List (Rat × Rat × Rat), 2 ≤ ss.length →
      sortByTime ss = [(0, 0, 0), (1, 3, 4)] →
      calculate_total_distance (mkFrame ss) = 5 := by
    intro ss hlen hsort
    rw [total_distance_mkFrame ss hlen, hsort]
    show Real.sqrt _ + specEuclidSum _ = 5
    norm_num [specEuclidSum, posOf]
    rw [(by norm_num : (25 : Real) = 5 ^ 2),
      Real.sqrt_sq (by norm_num : (0 : Real) ≤ 5)]
  refine ⟨?_, ?_, ?_, total_distance_mkFrame, ?_, ?_⟩
  · intro f h; unfold calculate_total_distance; rw [if_pos h]
  · intro f h
    unfold calculate_total_distance
    rw [h]
    split <;> rfl
  · intro f h
    unfold calculate_total_distance
    rw [h]
    cases find_column f xAliases <;> split <;> rfl
  · exact hconc _ (by decide) (by decide)
  · exact hconc _ (by decide) (by decide)

/-- Witness for C4: a one-sample frame and a frame with no coordinate
columns yield 0, and the two-sample 3-4-5 frame matches the spec sum. -/
theorem C4_total_distance_witness :
    calculate_total_distance (mkFrame [(0, 0, 0)]) = 0 ∧
    calculate_total_distance (Frame.mk ["time"] [[0], [1]]) = 0 ∧
    calculate_total_distance (mkFrame [(0, 0, 0), (1, 3, 4)]) =
      specEuclidSum ((sortByTime [(0, 0, 0), (1, 3, 4)]).map posOf) :=
  ⟨C4_total_distance.1 _ (by decide),
   C4_total_distance.2.1 _ (by decide),
   C4_total_distance.2.2.2.1 _ (by decide)⟩

/-! ### Direction-change lemmas -/

theorem direction_changes_mkFrame (ss : List (Rat × Rat × Rat)) (θ : Real)
    (h3 : 3 ≤ ss.length) :
    calculate_direction_changes (mkFrame ss) θ =
      countChanges θ ((sortByTime ss).map fun s => s.2.1)
        ((sortByTime ss).map fun s => s.2.2) := by
  unfold calculate_direction_changes
  rw [if_neg (by simp [mkFrame]; omega)]
  rw [find_column_mkFrame_x, find_column_mkFrame_y, find_column_mkFrame_time]
  show countChanges θ (getCol (sort_values (mkFrame ss) "time") "x")
      (getCol (sort_values (mkFrame ss) "time") "y") = _
  rw [sort_values_mkFrame, getCol_mkFrame_x, getCol_mkFrame_y]

theorem sortByTime_three (a b c : Rat × Rat × Rat) (hab : a.1 ≤ b.1)
    (hbc : b.1 ≤ c.1) : sortByTime [a, b, c] = [a, b, c] := by
  unfold sortByTime
  simp [List.insertionSort, List.orderedInsert, hab, hbc]

open Classical in
theorem countChanges_three (θ : Real) (x1 x2 x3 y1 y2 y3 : Rat) :
    countChanges θ [x1, x2, x3] [y1, y2, y3] =
      if changePred θ x1 y1 x2 y2 x3 y3 then 1 else 0 := by
  rw [countChanges]
  rfl

/-- When the two segment vectors coincide, the clipped cosine is 1, the
angle is 0 degrees, and no positive threshold is met. -/
theorem changePred_same (θ : Real) (hθ : 0 < θ) (x1 y1 x2 y2 x3 y3 : Rat)
    (hx : (x2 : Real) - (x1 : Real) = (x3 : Real) - (x2 : Real))
    (hy : (y2 : Real) - (y1 : Real) = (y3 : Real) - (y2 : Real)) :
    ¬ changePred θ x1 y1 x2 y2 x3 y3 := by
  intro h
  obtain ⟨h1, h2, h3⟩ := h
  rw [← hx, ← hy] at h3
  have hS : ((x2 : Real) - x1) ^ 2 + ((y2 : Real) - y1) ^ 2 > 0 := by
    have := h1
    unfold segNorm at this
    exact Real.sqrt_pos.mp this
  have hprod : segNorm ((x2 : Real) - x1) ((y2 : Real) - y1) *
      segNorm ((x2 : Real) - x1) ((y2 : Real) - y1) =
      ((x2 : Real) - x1) ^ 2 + ((y2 : Real) - y1) ^ 2 := by
    unfold segNorm
    exact Real.mul_self_sqrt (le_of_lt hS)
  have hdot : ((x2 : Real) - x1) * ((x2 : Real) - x1) +
      ((y2 : Real) - y1) * ((y2 : Real) - y1) =
      ((x2 : Real) - x1) ^ 2 + ((y2 : Real) - y1) ^ 2 := by ring
  rw [hprod, hdot, div_self (ne_of_gt hS)] at h3
  rw [(by norm_num : min (1 : Real) (max (-1) 1) = 1), Real.arccos_one,
    mul_zero] at h3
  linarith

/-- C5: `calculate_direction_changes` returns 0 for fewer than three
samples; for every consecutive triplet it tests the angle between the two
segment headings (arccosine of the clipped normalized dot product)
against the threshold, skipping zero-length segments; three collinear
evenly spaced samples give 0 at any positive threshold, and one exact
90-degree turn at the default threshold 45 gives 1. -/
theorem C5_direction_changes :
    (∀ (f : Frame) (θ : Real), f.rows.length < 3 →
      calculate_direction_changes f θ = 0) ∧
    (∀ px py vx vy : Rat, ∀ θ : Real, 0 < θ →
      calculate_direction_changes
        (mkFrame [(0, px, py), (1, px + vx, py + vy),
          (2, px + 2 * vx, py + 2 * vy)]) θ = 0) ∧
    calculate_direction_changes (mkFrame [(0, 0, 0), (1, 1, 0), (2, 1, 1)]) 45
      = 1 ∧
    (∀ θ : Real,
      calculate_direction_changes (mkFrame [(0, 0, 0), (1, 0, 0), (2, 5, 5)]) θ
        = 0) := by
  refine ⟨?_, ?_, ?_, ?_⟩
  · intro f θ h
    unfold calculate_direction_changes
    rw [if_pos h]
  · intro px py vx vy θ hθ
    rw [direction_changes_mkFrame _ _ (by simp)]
    rw [sortByTime_three _ _ _ (by norm_num) (by norm_num)]
    simp only [List.map_cons, List.map_nil]
    rw [countChanges_three]
    rw [if_neg (changePred_same θ hθ _ _ _ _ _ _ (by push_cast; ring)
      (by push_cast; ring))]
  · rw [direction_changes_mkFrame _ _ (by simp)]
    rw [sortByTime_three _ _ _ (by norm_num) (by norm_num)]
    simp only [List.map_cons, List.map_nil]
    rw [countChanges_three]
    have h90 : (180 / Real.pi) * (Real.pi / 2) = 90 := by
      field_simp
      ring
    have hpred : changePred 45 0 0 1 0 1 1 := by
      unfold changePred segNorm
      push_cast
      norm_num
      rw [h90]
      norm_num
    rw [if_pos hpred]
  · intro θ
    rw [direction_changes_mkFrame _ _ (by simp)]
    rw [sortByTime_three _ _ _ (by norm_num) (by norm_num)]
    simp only [List.map_cons, List.map_nil]
    rw [countChanges_three]
    rw [if_neg ?_]
    intro h
    obtain ⟨h1, _, _⟩ := h
    unfold segNorm at h1
    push_cast at h1
    norm_num at h1

/-- Witness for C5: a two-sample frame gives 0, the concrete collinear
series gives 0 at threshold 45, and the zero-length first segment is
skipped at threshold 0. -/
theorem C5_direction_changes_witness :
    calculate_direction_changes (mkFrame [(0, 0, 0), (1, 1, 1)]) 45 = 0 ∧
    calculate_direction_changes
      (mkFrame [(0, 2, 3), (1, 2 + 1, 3 + 1), (2, 2 + 2 * 1, 3 + 2 * 1)]) 45
        = 0 ∧
    calculate_direction_changes (mkFrame [(0, 0, 0), (1, 0, 0), (2, 5, 5)]) 0
      = 0 :=
  ⟨C5_direction_changes.1 _ 45 (by decide),
   C5_direction_changes.2.1 2 3 1 1 45 (by norm_num),
   C5_direction_changes.2.2.2 0⟩

/-! ### Lateral movement (C6) -/

theorem lateral_mkFrame (ss : List (Rat × Rat × Rat)) :
    calculate_lateral_movement (mkFrame ss) =
      absDeltaSum (ss.map fun s => s.2.1) := by
  match ss with
  | [] => rfl
  | [s] => rfl
  | s1 :: s2 :: rest =>
    unfold calculate_lateral_movement
    have hlen : ¬ (mkFrame (s1 :: s2 :: rest)).rows.length < 2 := by
      simp only [mkFrame, List.length_map, List.length_cons]
      omega
    rw [if_neg hlen, find_column_mkFrame_x]
    show absDeltaSum (getCol (mkFrame (s1 :: s2 :: rest)) "x") = _
    rw [getCol_mkFrame_x]

/-- C6 counterexample: two row-permutations of the same tracking series
(both with resolvable time and x columns) give different
`lateral_movement` values, because `_calculate_lateral_movement` reads the
x column in the given row order and performs no time sort; the value on
the unsorted frame also differs from the value on its time-sorted
version. -/
theorem C6_lateral_counterexample :
    (mkFrame [(1, 5, 0), (0, 0, 0), (2, 6, 0)]).rows.Perm
      (mkFrame [(0, 0, 0), (1, 5, 0), (2, 6, 0)]).rows ∧
    find_column (mkFrame [(0, 0, 0), (1, 5, 0), (2, 6, 0)]) timeAliases =
      some "time" ∧
    calculate_lateral_movement (mkFrame [(0, 0, 0), (1, 5, 0), (2, 6, 0)]) = 6 ∧
    calculate_lateral_movement (mkFrame [(1, 5, 0), (0, 0, 0), (2, 6, 0)]) = 11 ∧
    calculate_lateral_movement (mkFrame [(1, 5, 0), (0, 0, 0), (2, 6, 0)]) ≠
      calculate_lateral_movement (mkFrame [(0, 0, 0), (1, 5, 0), (2, 6, 0)]) := by
  have hA : calculate_lateral_movement
      (mkFrame [(0, 0, 0), (1, 5, 0), (2, 6, 0)]) = 6 := by
    rw [lateral_mkFrame]
    norm_num [absDeltaSum]
  have hB : calculate_lateral_movement
      (mkFrame [(1, 5, 0), (0, 0, 0), (2, 6, 0)]) = 11 := by
    rw [lateral_mkFrame]
    norm_num [absDeltaSum]
  refine ⟨?_, rfl, hA, hB, ?_⟩
  · show ([[1, 5, 0], [0, 0, 0], [2, 6, 0]] : List (List Rat)).Perm
      [[0, 0, 0], [1, 5, 0], [2, 6, 0]]
    exact List.Perm.swap _ _ _
  · rw [hA, hB]
    norm_num

/-- C6 amended: `lateral_movement` is the sum of absolute consecutive
x-deltas over the rows in their given order (no time re-sort), and it is 0
for an unresolved x column or fewer than two rows. -/
theorem C6_lateral_amended :
    (∀ ss : List (Rat × Rat × Rat),
      calculate_lateral_movement (mkFrame ss) =
        absDeltaSum (ss.map fun s => s.2.1)) ∧
    (∀ f : Frame, find_column f xAliases = none →
      calculate_lateral_movement f = 0) ∧
    (∀ f : Frame, f.rows.length < 2 → calculate_lateral_movement f = 0) := by
  refine ⟨lateral_mkFrame, ?_, ?_⟩
  · intro f h
    unfold calculate_lateral_movement
    rw [h]
    split <;> rfl
  · intro f h
    unfold calculate_lateral_movement
    rw [if_pos h]

/-- Witness for C6 amended: a frame with no x column and a one-sample
frame both give 0. -/
theorem C6_lateral_amended_witness :
    calculate_lateral_movement (Frame.mk ["time"] [[0], [1]]) = 0 ∧
    calculate_lateral_movement (mkFrame [(0, 0, 0)]) = 0 :=
  ⟨C6_lateral_amended.2.1 _ (by decide), C6_lateral_amended.2.2 _ (by decide)⟩

/-- Witness for C10 on the four-player example batch at position 0. -/
theorem C10_rank_mutation_witness :
    ((rank_players_heap exampleBatch).getD 0 dfltReport).player_name =
      (exampleBatch.getD 0 dfltReport).player_name ∧
    ((rank_players_heap exampleBatch).getD 0 dfltReport).rank =
      some ((sortIdx exampleBatch).indexOf 0 + 1) :=
  ⟨((C10_rank_mutation exampleBatch).2.1 0 (by decide)).1,
   ((C10_rank_mutation exampleBatch).2.1 0 (by decide)).2.2.2.2.2⟩

end GoalieScout
